import Mathlib

/-!
# TipThermoModel

A shallow embedding of `TS100/Core/Drivers/TipThermoModel.cpp`, the thermal model that turns a raw
tip ADC sample into a temperature, together with the properties of it that the specification
states.

Conventions of the embedding:

* a `uint32_t`/`uint16_t` value is a `Nat`; every unsigned operation that can leave the 32-bit
  range is reduced with `u32` (modulo `2^32`);
* an `int32_t` value is an `Int`; every signed operation is wrapped with `i32` (two's complement,
  what the Cortex-M target computes), and signed division is `Int.tdiv` (truncation toward zero);
* the things the file reads from other translation units (the gain macro, the settings, the
  ADC / handle-temperature / power-history accessors) are the fields of `Board`.
-/

namespace TipThermoModel

/-! ## Machine integers -/

/-- Reduction of a natural number to the `uint32_t` range. -/
def u32 (n : Nat) : Nat := n % 4294967296

/-- Conversion of an integer to `uint32_t`. -/
def toU32 (z : Int) : Nat := (z % 4294967296).toNat

/-- Conversion of an integer to `int32_t` (two's complement wrap-around). -/
def i32 (z : Int) : Int := (z + 2147483648) % 4294967296 - 2147483648

/-! ## External state -/

/-- Snapshot of everything `TipThermoModel.cpp` reads from outside the file. None of these
declarations is part of the translation unit, so each one is a parameter of the model. -/
structure Board where
  /-- The macro `OP_AMP_GAIN_STAGE` of `configuration.h` (a positive compile-time constant). -/
  OP_AMP_GAIN_STAGE : Nat
  /-- The field `systemSettings.CalibrationOffset`. -/
  CalibrationOffset : Nat
  /-- The global `currentTempTargetDegC` (unsigned 32-bit). -/
  currentTempTargetDegC : Nat
  /-- The accessor `getTipRawTemp(sampleNow)`, returning a 16-bit ADC code. -/
  getTipRawTemp : Bool → Nat
  /-- The accessor `getHandleTemperature()`, in tenths of a degree. -/
  getHandleTemperature : Nat
  /-- The value of `x10WattHistory.average()`, in tenths of a Watt. -/
  x10WattHistory_average : Nat

/-! ## Raw ADC code to microvolts -/

/-- Embedding of `TipThermoModel::convertTipRawADCTouV(uint16_t rawADC)`. -/
def convertTipRawADCTouV (b : Board) (rawADC : Nat) : Nat :=
  let vddRailmVX10 : Nat := 33000
  let rawInputmVX10 : Nat := u32 (rawADC * vddRailmVX10) / (4096 * 8)
  let valueuV : Nat := u32 (rawInputmVX10 * 100)
  let valueuV : Nat := valueuV / b.OP_AMP_GAIN_STAGE
  let valueuV : Nat :=
    if b.CalibrationOffset ≠ 0 then
      if valueuV ≥ b.CalibrationOffset then valueuV - b.CalibrationOffset else 0
    else valueuV
  if b.currentTempTargetDegC > 0 then
    let compensation : Nat :=
      u32 (20625 * u32 (u32 (b.currentTempTargetDegC * 10) + 600)) / 512
    let compensation : Nat := compensation / b.OP_AMP_GAIN_STAGE
    if valueuV > compensation then valueuV - compensation else valueuV
  else valueuV

/-! ## The calibration curve -/

/-- Embedding of `LinearInterpolate(int32_t x1, y1, x2, y2, x)`:
`y1 + (((((x - x1) * 1000) / (x2 - x1)) * (y2 - y1))) / 1000` in `int32_t` arithmetic. -/
def LinearInterpolate (x1 y1 x2 y2 x : Int) : Int :=
  i32 (y1 + i32 (Int.tdiv (i32 (i32 (Int.tdiv (i32 (i32 (x - x1) * 1000)) (i32 (x2 - x1)))
    * i32 (y2 - y1))) 1000))

/-- The table `uVtoDegC[]`: 51 pairs, microvolts then degrees, stored flat as in the source. -/
def uVtoDegC : List Nat :=
  [0, 0,
   175, 10,
   381, 20,
   587, 30,
   804, 40,
   1005, 50,
   1007, 60,
   1107, 70,
   1310, 80,
   1522, 90,
   1731, 100,
   1939, 110,
   2079, 120,
   2265, 130,
   2470, 140,
   2676, 150,
   2899, 160,
   3081, 170,
   3186, 180,
   3422, 190,
   3622, 200,
   3830, 210,
   4044, 220,
   4400, 230,
   4691, 240,
   4989, 250,
   5289, 260,
   5583, 270,
   5879, 280,
   6075, 290,
   6332, 300,
   6521, 310,
   6724, 320,
   6929, 330,
   7132, 340,
   7356, 350,
   7561, 360,
   7774, 370,
   7992, 380,
   8200, 390,
   8410, 400,
   8626, 410,
   8849, 420,
   9060, 430,
   9271, 440,
   9531, 450,
   9748, 460,
   10210, 470,
   10219, 480,
   10429, 490,
   10649, 500]

/-- The array read `uVtoDegC[i]`. -/
def uVtoDegC_at (i : Nat) : Nat := uVtoDegC.getD i 0

/-- The local `noItems = sizeof(uVtoDegC) / (2 * sizeof(uint16_t))`. -/
def noItems : Nat := uVtoDegC.length / 2

/-- The `for (int i = 1; i < (noItems - 1); i++)` loop of `convertuVToDegC`, entered at index `i`
with `n = (noItems - 1) - i` iterations left. When no iteration is left the loop condition is
false and control reaches the `return` after the loop, which uses the last two table points. -/
def convertuVToDegC_loop (tipuVDelta : Nat) : Nat → Nat → Int
  | 0, _ =>
    LinearInterpolate (uVtoDegC_at ((noItems - 2) * 2)) (uVtoDegC_at (((noItems - 2) * 2) + 1))
      (uVtoDegC_at ((noItems - 1) * 2)) (uVtoDegC_at (((noItems - 1) * 2) + 1)) (i32 tipuVDelta)
  | n + 1, i =>
    if tipuVDelta < uVtoDegC_at (i * 2) then
      LinearInterpolate (uVtoDegC_at ((i - 1) * 2)) (uVtoDegC_at (((i - 1) * 2) + 1))
        (uVtoDegC_at (i * 2)) (uVtoDegC_at ((i * 2) + 1)) (i32 tipuVDelta)
    else convertuVToDegC_loop tipuVDelta n (i + 1)

/-- Embedding of `TipThermoModel::convertuVToDegC(uint32_t tipuVDelta)`. -/
def convertuVToDegC (tipuVDelta : Nat) : Nat :=
  if tipuVDelta ≠ 0 then
    toU32 (convertuVToDegC_loop tipuVDelta ((noItems - 1) - 1) 1)
  else 0

/-- Embedding of `TipThermoModel::convertTipRawADCToDegC(uint16_t rawADC)`. -/
def convertTipRawADCToDegC (b : Board) (rawADC : Nat) : Nat :=
  convertuVToDegC (convertTipRawADCTouV b rawADC)

/-! ## Fahrenheit support (`ENABLED_FAHRENHEIT_SUPPORT`) -/

/-- Embedding of `TipThermoModel::convertCtoF(uint32_t degC)`. -/
def convertCtoF (degC : Nat) : Nat := u32 (32 + u32 (degC * 9) / 5)

/-- Embedding of `TipThermoModel::convertFtoC(uint32_t degF)`. -/
def convertFtoC (degF : Nat) : Nat :=
  if degF < 32 then 0 else u32 ((degF - 32) * 5) / 9

/-- Embedding of `TipThermoModel::convertuVToDegF(uint32_t tipuVDelta)`. -/
def convertuVToDegF (tipuVDelta : Nat) : Nat := convertCtoF (convertuVToDegC tipuVDelta)

/-- Embedding of `TipThermoModel::convertTipRawADCToDegF(uint16_t rawADC)`. -/
def convertTipRawADCToDegF (b : Board) (rawADC : Nat) : Nat :=
  convertuVToDegF (convertTipRawADCTouV b rawADC)

/-! ## The reported tip temperature -/

/-- Embedding of `TipThermoModel::getTipInC(bool sampleNow)`; the local `currentTipTempInC` is an
`int32_t`. -/
def getTipInC (b : Board) (sampleNow : Bool) : Nat :=
  let currentTipTempInC : Int := i32 (convertTipRawADCToDegC b (b.getTipRawTemp sampleNow))
  let currentTipTempInC : Int :=
    i32 (currentTipTempInC + ((b.getHandleTemperature / 10 : Nat) : Int))
  let currentTipTempInC : Int :=
    i32 (currentTipTempInC - ((b.x10WattHistory_average / 25 : Nat) : Int))
  if currentTipTempInC < 0 then 0 else toU32 currentTipTempInC

/-- Embedding of `TipThermoModel::getTipInF(bool sampleNow)`; the local `currentTipTempInF` is a
`uint32_t`. -/
def getTipInF (b : Board) (sampleNow : Bool) : Nat :=
  let currentTipTempInF : Nat := convertTipRawADCToDegF b (b.getTipRawTemp sampleNow)
  let currentTipTempInF : Nat :=
    u32 (currentTipTempInF + convertCtoF (b.getHandleTemperature / 10))
  let currentTipTempInF : Nat := u32 (currentTipTempInF + b.x10WattHistory_average / 45)
  currentTipTempInF

/-- Embedding of `TipThermoModel::getTipMaxInC()`. -/
def getTipMaxInC (b : Board) : Nat :=
  let maximumTipTemp : Nat := convertTipRawADCToDegC b (0x7FFF - (80 * 5))
  let maximumTipTemp : Nat := u32 (maximumTipTemp + b.getHandleTemperature / 10)
  toU32 ((maximumTipTemp : Int) - 1)



/-! ## The interpolation over unbounded integers -/

/-- Membership of the `int32_t` range. -/
def inInt32 (z : Int) : Prop := -2147483648 ≤ z ∧ z ≤ 2147483647

/-- The formula of `LinearInterpolate` evaluated over the unbounded integers, with the same
truncating divisions; the reference against which the `int32_t` computation is compared. -/
def LinearInterpolate_exact (x1 y1 x2 y2 x : Int) : Int :=
  y1 + Int.tdiv ((Int.tdiv ((x - x1) * 1000) (x2 - x1)) * (y2 - y1)) 1000

/-- The intermediate values of `LinearInterpolate` over the unbounded integers, in evaluation
order: `x - x1`, `(x - x1) * 1000`, `x2 - x1`, the quotient, `y2 - y1`, the product of the
quotient with `y2 - y1`, that product divided by 1000, and the final sum. -/
def LinearInterpolate_intermediates (x1 y1 x2 y2 x : Int) : List Int :=
  [x - x1,
   (x - x1) * 1000,
   x2 - x1,
   Int.tdiv ((x - x1) * 1000) (x2 - x1),
   y2 - y1,
   (Int.tdiv ((x - x1) * 1000) (x2 - x1)) * (y2 - y1),
   Int.tdiv ((Int.tdiv ((x - x1) * 1000) (x2 - x1)) * (y2 - y1)) 1000,
   y1 + Int.tdiv ((Int.tdiv ((x - x1) * 1000) (x2 - x1)) * (y2 - y1)) 1000]

/-! ## Machine-integer lemmas -/

theorem i32_of_range (z : Int) (h0 : -2147483648 ≤ z) (h1 : z < 2147483648) : i32 z = z := by
  unfold i32; omega

theorem i32_natCast (n : Nat) (h : n < 2147483648) : i32 (n : Int) = (n : Int) :=
  i32_of_range _ (by omega) (by omega)

theorem toU32_natCast (n : Nat) (h : n < 4294967296) : toU32 (n : Int) = n := by
  unfold toU32; omega

theorem u32_of_lt (n : Nat) (h : n < 4294967296) : u32 n = n := by
  unfold u32; omega

/-- Without overflow `LinearInterpolate` is the formula over the naturals. -/
theorem LinearInterpolate_nat (x1 y1 x2 y2 x : Nat) (hx : x1 ≤ x) (hx12 : x1 < x2) (hy : y1 ≤ y2)
    (hx2 : x2 < 2147483648) (hy2 : y2 < 2147483648)
    (h1 : (x - x1) * 1000 < 2147483648)
    (h2 : (x - x1) * 1000 / (x2 - x1) * (y2 - y1) < 2147483648)
    (h3 : y1 + (x - x1) * 1000 / (x2 - x1) * (y2 - y1) / 1000 < 2147483648) :
    LinearInterpolate x1 y1 x2 y2 x
      = ((y1 + (x - x1) * 1000 / (x2 - x1) * (y2 - y1) / 1000 : Nat) : Int) := by
  have e1 : ((x : Int) - x1) = ((x - x1 : Nat) : Int) := by omega
  have e2 : ((x2 : Int) - x1) = ((x2 - x1 : Nat) : Int) := by omega
  have e3 : ((y2 : Int) - y1) = ((y2 - y1 : Nat) : Int) := by omega
  have hd : (x - x1) * 1000 / (x2 - x1) ≤ (x - x1) * 1000 := Nat.div_le_self _ _
  unfold LinearInterpolate
  rw [e1, e2, e3, i32_natCast _ (by omega), i32_natCast _ (by omega), i32_natCast _ (by omega)]
  rw [show (((x - x1 : Nat) : Int) * 1000) = (((x - x1) * 1000 : Nat) : Int) by push_cast; rfl]
  rw [i32_natCast _ h1, ← Int.ofNat_tdiv, i32_natCast _ (by omega), ← Nat.cast_mul,
    i32_natCast _ h2]
  rw [show (1000 : Int) = ((1000 : Nat) : Int) by rfl, ← Int.ofNat_tdiv,
    i32_natCast _ (by omega), ← Nat.cast_add, i32_natCast _ h3]



/-! ## The calibration table -/

theorem noItems_eq : noItems = 51 := by decide

/-- Both columns of the table step upwards: microvolts strictly, degrees by exactly 10. -/
theorem uVtoDegC_step : ∀ j, j < 50 →
    uVtoDegC_at (j * 2) < uVtoDegC_at ((j + 1) * 2) ∧
      uVtoDegC_at ((j + 1) * 2 + 1) = uVtoDegC_at (j * 2 + 1) + 10 := by
  decide

theorem uVtoDegC_bounds : ∀ j, j < 51 →
    uVtoDegC_at (j * 2) ≤ 10649 ∧ uVtoDegC_at (j * 2 + 1) = 10 * j := by
  decide

theorem uVtoDegC_mono (j k : Nat) (hjk : j ≤ k) (hk : k ≤ 50) :
    uVtoDegC_at (j * 2) ≤ uVtoDegC_at (k * 2) := by
  induction k with
  | zero =>
    have : j = 0 := by omega
    subst this; exact le_refl _
  | succ k ih =>
    rcases Nat.eq_or_lt_of_le hjk with h | h
    · subst h; exact le_refl _
    · have h1 := ih (by omega) (by omega)
      have h2 := (uVtoDegC_step k (by omega)).1
      omega

/-! ## The table walk -/

theorem convertuVToDegC_loop_found (x : Nat) : ∀ (n i k : Nat), i ≤ k → k - i < n →
    (∀ j, i ≤ j → j < k → ¬ x < uVtoDegC_at (j * 2)) → x < uVtoDegC_at (k * 2) →
    convertuVToDegC_loop x n i
      = LinearInterpolate (uVtoDegC_at ((k - 1) * 2)) (uVtoDegC_at (((k - 1) * 2) + 1))
          (uVtoDegC_at (k * 2)) (uVtoDegC_at ((k * 2) + 1)) (i32 x) := by
  intro n
  induction n with
  | zero => intro i k _ h; omega
  | succ n ih =>
    intro i k hik hn hbelow hk
    by_cases hi : x < uVtoDegC_at (i * 2)
    · have : i = k := by
        by_contra hne
        exact hbelow i (le_refl _) (by omega) hi
      subst this
      simp only [convertuVToDegC_loop, if_pos hi]
    · have hne : i ≠ k := fun h => hi (h ▸ hk)
      simp only [convertuVToDegC_loop, if_neg hi]
      exact ih (i + 1) k (by omega) (by omega) (fun j h1 h2 => hbelow j (by omega) h2) hk

theorem convertuVToDegC_loop_fall (x : Nat) : ∀ (n i : Nat),
    (∀ j, i ≤ j → j < i + n → ¬ x < uVtoDegC_at (j * 2)) →
    convertuVToDegC_loop x n i
      = LinearInterpolate (uVtoDegC_at ((noItems - 2) * 2))
          (uVtoDegC_at (((noItems - 2) * 2) + 1)) (uVtoDegC_at ((noItems - 1) * 2))
          (uVtoDegC_at (((noItems - 1) * 2) + 1)) (i32 x) := by
  intro n
  induction n with
  | zero => intro i _; simp only [convertuVToDegC_loop]
  | succ n ih =>
    intro i h
    have hi : ¬ x < uVtoDegC_at (i * 2) := h i (le_refl _) (by omega)
    simp only [convertuVToDegC_loop, if_neg hi]
    exact ih (i + 1) (fun j h1 h2 => h j (by omega) (by omega))

/-- The walk selects the bracketing pair `j`, `j + 1`; from the last knot but one upwards it
selects the last pair. -/
theorem convertuVToDegC_pair (x j : Nat) (hx : x ≠ 0) (hj : j ≤ 49)
    (hlo : uVtoDegC_at (j * 2) ≤ x) (hhi : j < 49 → x < uVtoDegC_at ((j + 1) * 2)) :
    convertuVToDegC x
      = toU32 (LinearInterpolate (uVtoDegC_at (j * 2)) (uVtoDegC_at (j * 2 + 1))
          (uVtoDegC_at ((j + 1) * 2)) (uVtoDegC_at ((j + 1) * 2 + 1)) (i32 x)) := by
  have hbelow : ∀ i, i ≤ j → ¬ x < uVtoDegC_at (i * 2) := fun i hi => by
    have := uVtoDegC_mono i j hi (by omega)
    omega
  simp only [convertuVToDegC, if_pos hx, noItems_eq]
  rcases Nat.lt_or_ge j 49 with h | h
  · rw [convertuVToDegC_loop_found x 49 1 (j + 1) (by omega) (by omega)
      (fun i _ h2 => hbelow i (by omega)) (hhi h)]
    simp
  · have : j = 49 := by omega
    subst this
    rw [convertuVToDegC_loop_fall x 49 1 (fun i _ h2 => hbelow i (by omega))]
    simp [noItems_eq]

/-- Every input lies in exactly one segment of the walk. -/
theorem exists_pair (x : Nat) :
    ∃ j, j ≤ 49 ∧ uVtoDegC_at (j * 2) ≤ x ∧ (j < 49 → x < uVtoDegC_at ((j + 1) * 2)) := by
  have key : ∀ n, n ≤ 49 → x < uVtoDegC_at (n * 2) →
      ∃ j, j < n ∧ uVtoDegC_at (j * 2) ≤ x ∧ x < uVtoDegC_at ((j + 1) * 2) := by
    intro n
    induction n with
    | zero =>
      intro _ h
      have : uVtoDegC_at (0 * 2) = 0 := by decide
      omega
    | succ n ih =>
      intro hn h
      rcases Nat.lt_or_ge x (uVtoDegC_at (n * 2)) with h1 | h1
      · obtain ⟨j, hj, hl, hu⟩ := ih (by omega) h1
        exact ⟨j, by omega, hl, hu⟩
      · exact ⟨n, by omega, h1, h⟩
  rcases Nat.lt_or_ge x (uVtoDegC_at (49 * 2)) with h | h
  · obtain ⟨j, hj, hl, hu⟩ := key 49 (le_refl _) h
    exact ⟨j, by omega, hl, fun _ => hu⟩
  · exact ⟨49, le_refl _, h, fun h => absurd h (by omega)⟩



/-! ## Closed form of the conversion -/

/-- On the pair it selects, and as long as `(x - x1) * 1000` fits in an `int32_t`, the conversion
is the interpolation formula over the naturals. -/
theorem convertuVToDegC_closed (x j : Nat) (hx : x ≠ 0) (hj : j ≤ 49)
    (hlo : uVtoDegC_at (j * 2) ≤ x) (hhi : j < 49 → x < uVtoDegC_at ((j + 1) * 2))
    (hfit : (x - 10429) * 1000 < 2147483648) :
    convertuVToDegC x
      = uVtoDegC_at (j * 2 + 1)
        + (x - uVtoDegC_at (j * 2)) * 1000 / (uVtoDegC_at ((j + 1) * 2) - uVtoDegC_at (j * 2))
            * (uVtoDegC_at ((j + 1) * 2 + 1) - uVtoDegC_at (j * 2 + 1)) / 1000 := by
  obtain ⟨hstep, hy⟩ := uVtoDegC_step j (by omega)
  obtain ⟨hb1, hy1⟩ := uVtoDegC_bounds j (by omega)
  obtain ⟨hb2, hy2⟩ := uVtoDegC_bounds (j + 1) (by omega)
  have hx31 : x < 2147483648 := by omega
  have hnum : (x - uVtoDegC_at (j * 2)) * 1000 < 2147483648 := by
    rcases Nat.lt_or_ge j 49 with h | h
    · have := hhi h
      omega
    · have : j = 49 := by omega
      subst this
      have : uVtoDegC_at (49 * 2) = 10429 := by decide
      omega
  have hq : (x - uVtoDegC_at (j * 2)) * 1000 / (uVtoDegC_at ((j + 1) * 2) - uVtoDegC_at (j * 2))
      ≤ 9761289 := by
    rcases Nat.lt_or_ge j 49 with h | h
    · have := hhi h
      have : (x - uVtoDegC_at (j * 2)) * 1000
          / (uVtoDegC_at ((j + 1) * 2) - uVtoDegC_at (j * 2)) < 1000 := by
        rw [Nat.div_lt_iff_lt_mul (by omega)]
        have := Nat.mul_lt_mul_of_pos_right
          (show x - uVtoDegC_at (j * 2) < uVtoDegC_at ((j + 1) * 2) - uVtoDegC_at (j * 2) by omega)
          (show 0 < 1000 by omega)
        rw [Nat.mul_comm 1000]
        exact this
      omega
    · have : j = 49 := by omega
      subst this
      have e1 : uVtoDegC_at (49 * 2) = 10429 := by decide
      have e2 : uVtoDegC_at ((49 + 1) * 2) = 10649 := by decide
      rw [e1, e2]
      omega
  rw [convertuVToDegC_pair x j hx hj hlo hhi, i32_natCast x hx31,
    LinearInterpolate_nat _ _ _ _ x hlo hstep (by omega) (by omega) (by omega) hnum
      (by rw [hy, Nat.add_sub_cancel_left]; omega)
      (by rw [hy, Nat.add_sub_cancel_left]; omega)]
  rw [toU32_natCast]
  rw [hy, Nat.add_sub_cancel_left]; omega



theorem convertuVToDegC_zero : convertuVToDegC 0 = 0 := by decide

/-- The conversion never returns less than the lower knot of the selected pair. -/
theorem convertuVToDegC_lower (x j : Nat) (hx : x ≠ 0) (hj : j ≤ 49)
    (hlo : uVtoDegC_at (j * 2) ≤ x) (hhi : j < 49 → x < uVtoDegC_at ((j + 1) * 2))
    (hfit : (x - 10429) * 1000 < 2147483648) :
    10 * j ≤ convertuVToDegC x := by
  rw [convertuVToDegC_closed x j hx hj hlo hhi hfit, (uVtoDegC_bounds j (by omega)).2]
  exact Nat.le_add_right _ _

/-- Inside the table the conversion stays strictly below the upper knot of the selected pair. -/
theorem convertuVToDegC_upper (x j : Nat) (hx : x ≠ 0) (hj : j < 49)
    (hlo : uVtoDegC_at (j * 2) ≤ x) (hhi : x < uVtoDegC_at ((j + 1) * 2)) :
    convertuVToDegC x ≤ 10 * j + 9 := by
  obtain ⟨hstep, hy⟩ := uVtoDegC_step j (by omega)
  obtain ⟨hb2, -⟩ := uVtoDegC_bounds (j + 1) (by omega)
  rw [convertuVToDegC_closed x j hx (by omega) hlo (fun _ => hhi) (by omega), hy,
    Nat.add_sub_cancel_left, (uVtoDegC_bounds j (by omega)).2]
  have : (x - uVtoDegC_at (j * 2)) * 1000
      / (uVtoDegC_at ((j + 1) * 2) - uVtoDegC_at (j * 2)) < 1000 := by
    rw [Nat.div_lt_iff_lt_mul (by omega), Nat.mul_comm 1000]
    exact Nat.mul_lt_mul_of_pos_right (by omega) (by omega)
  omega

/-- The conversion is non-decreasing as far as the interpolation does not overflow. -/
theorem convertuVToDegC_le_of_le (a c : Nat) (hac : a ≤ c) (hfit : (c - 10429) * 1000 < 2147483648) :
    convertuVToDegC a ≤ convertuVToDegC c := by
  rcases Nat.eq_zero_or_pos a with ha | ha
  · subst ha; rw [convertuVToDegC_zero]; exact Nat.zero_le _
  have ha0 : a ≠ 0 := by omega
  have hc0 : c ≠ 0 := by omega
  have hfita : (a - 10429) * 1000 < 2147483648 := by omega
  obtain ⟨j, hj, hjlo, hjhi⟩ := exists_pair a
  obtain ⟨k, hk, hklo, hkhi⟩ := exists_pair c
  have hjk : j ≤ k := by
    by_contra hlt
    have h1 := hkhi (by omega)
    have h2 := uVtoDegC_mono (k + 1) j (by omega) (by omega)
    omega
  rcases Nat.eq_or_lt_of_le hjk with h | h
  · subst h
    rw [convertuVToDegC_closed a j ha0 hj hjlo hjhi hfita,
      convertuVToDegC_closed c j hc0 hj hklo hkhi hfit]
    apply Nat.add_le_add_left
    apply Nat.div_le_div_right
    apply Nat.mul_le_mul_right
    apply Nat.div_le_div_right
    apply Nat.mul_le_mul_right
    omega
  · have h1 := convertuVToDegC_upper a j ha0 (by omega) hjlo (hjhi (by omega))
    have h2 := convertuVToDegC_lower c k hc0 hk hklo hkhi hfit
    omega



/-- Away from overflow the conversion is at most 98102 degrees. -/
theorem convertuVToDegC_le (x : Nat) (hfit : (x - 10429) * 1000 < 2147483648) :
    convertuVToDegC x ≤ 98102 := by
  rcases Nat.eq_zero_or_pos x with hx | hx
  · subst hx; rw [convertuVToDegC_zero]; omega
  obtain ⟨j, hj, hlo, hhi⟩ := exists_pair x
  rcases Nat.lt_or_ge j 49 with h | h
  · have := convertuVToDegC_upper x j (by omega) h hlo (hhi h)
    omega
  · have hj49 : j = 49 := by omega
    subst hj49
    have e1 : uVtoDegC_at (49 * 2) = 10429 := by decide
    have e2 : uVtoDegC_at ((49 + 1) * 2) = 10649 := by decide
    have e3 : uVtoDegC_at (49 * 2 + 1) = 490 := by decide
    have e4 : uVtoDegC_at ((49 + 1) * 2 + 1) = 500 := by decide
    rw [convertuVToDegC_closed x 49 (by omega) hj hlo hhi hfit, e1, e2, e3, e4]
    omega

/-! ## The curve: claims -/

/-- Claim C1: at every one of the 51 knots `(x, y)` of the calibration table `uVtoDegC` the
conversion returns the tabulated value, `convertuVToDegC x = y`; in particular
`convertuVToDegC 0 = 0`, `convertuVToDegC 1005 = 50` and, at the last knot,
`convertuVToDegC 10649 = 500`. -/
theorem convertuVToDegC_knots :
    (noItems = 51 ∧
      ∀ k, k < noItems → convertuVToDegC (uVtoDegC_at (k * 2)) = uVtoDegC_at (k * 2 + 1)) ∧
    convertuVToDegC 0 = 0 ∧ convertuVToDegC 1005 = 50 ∧ convertuVToDegC 10649 = 500 := by
  decide

/-- Claim C2: `convertuVToDegC` is monotonically non-decreasing over the domain of the table:
for microvolt deltas `a < c` with `0 ≤ a` and `c ≤ 10649`,
`convertuVToDegC a ≤ convertuVToDegC c`, whether or not `a` and `c` lie in the same segment. -/
theorem convertuVToDegC_monotone (a c : Nat) (hac : a < c) (hc : c ≤ 10649) :
    convertuVToDegC a ≤ convertuVToDegC c :=
  convertuVToDegC_le_of_le a c (by omega) (by omega)

/-- Witness for C2 across a segment boundary: 1006 lies in the segment 1005..1007 and 1107 is the
next knot but one. -/
theorem convertuVToDegC_monotone_witness :
    1006 < 1107 ∧ 1107 ≤ 10649 ∧ convertuVToDegC 1006 ≤ convertuVToDegC 1107 :=
  ⟨by decide, by decide, convertuVToDegC_monotone 1006 1107 (by decide) (by decide)⟩

/-- Claim C3: for every microvolt delta with `0 < delta < 10649` there is exactly one table index
`k` with `x_k ≤ delta < x_(k+1)`, and
`convertuVToDegC delta = y_k + ((((delta - x_k) * 1000) / (x_(k+1) - x_k)) * (y_(k+1) - y_k)) / 1000`
with truncating division (all operands are non-negative, so this is division on the naturals):
the loop from index 1 that stops before the last entry, together with its fall-through, selects
the bracketing pair, the last segment `10429 ≤ delta < 10649` included. -/
theorem convertuVToDegC_bracket (delta : Nat) (h0 : 0 < delta) (h1 : delta < 10649) :
    ∃ k, k + 1 < noItems ∧
      (uVtoDegC_at (k * 2) ≤ delta ∧ delta < uVtoDegC_at ((k + 1) * 2)) ∧
      (∀ j, j + 1 < noItems → uVtoDegC_at (j * 2) ≤ delta → delta < uVtoDegC_at ((j + 1) * 2) →
        j = k) ∧
      convertuVToDegC delta
        = uVtoDegC_at (k * 2 + 1)
          + ((((delta - uVtoDegC_at (k * 2)) * 1000)
                / (uVtoDegC_at ((k + 1) * 2) - uVtoDegC_at (k * 2)))
              * (uVtoDegC_at ((k + 1) * 2 + 1) - uVtoDegC_at (k * 2 + 1))) / 1000 := by
  obtain ⟨k, hk, hlo, hhi⟩ := exists_pair delta
  have hlast : uVtoDegC_at ((49 + 1) * 2) = 10649 := by decide
  have hup : delta < uVtoDegC_at ((k + 1) * 2) := by
    rcases Nat.lt_or_ge k 49 with h | h
    · exact hhi h
    · have : k = 49 := by omega
      subst this; omega
  refine ⟨k, by rw [noItems_eq]; omega, ⟨hlo, hup⟩, ?_, ?_⟩
  · intro j hj hjlo hjhi
    rw [noItems_eq] at hj
    by_contra hne
    rcases Nat.lt_or_ge j k with h | h
    · have := uVtoDegC_mono (j + 1) k (by omega) (by omega)
      omega
    · have := uVtoDegC_mono (k + 1) j (by omega) (by omega)
      omega
  · exact convertuVToDegC_closed delta k (by omega) hk hlo hhi (by omega)

/-- Witness for C3 in the last segment, which the loop leaves to the fall-through. -/
theorem convertuVToDegC_bracket_witness :
    (0 < 10500 ∧ 10500 < 10649) ∧
    ∃ k, k + 1 < noItems ∧
      (uVtoDegC_at (k * 2) ≤ 10500 ∧ 10500 < uVtoDegC_at ((k + 1) * 2)) ∧
      (∀ j, j + 1 < noItems → uVtoDegC_at (j * 2) ≤ 10500 → 10500 < uVtoDegC_at ((j + 1) * 2) →
        j = k) ∧
      convertuVToDegC 10500
        = uVtoDegC_at (k * 2 + 1)
          + ((((10500 - uVtoDegC_at (k * 2)) * 1000)
                / (uVtoDegC_at ((k + 1) * 2) - uVtoDegC_at (k * 2)))
              * (uVtoDegC_at ((k + 1) * 2 + 1) - uVtoDegC_at (k * 2 + 1))) / 1000 :=
  ⟨by decide, convertuVToDegC_bracket 10500 (by decide) (by decide)⟩

/-- Claim C4: for every microvolt delta at or above the last table entry 10649 for which
`(delta - 10429) * 1000` fits in a signed 32-bit integer, `convertuVToDegC` extrapolates from the
last two table points instead of clamping: the result is
`490 + ((((delta - 10429) * 1000) / 220) * 10) / 1000`, it is at least 500, and it is
non-decreasing in `delta`. -/
theorem convertuVToDegC_extrapolates (delta : Nat) (hlast : 10649 ≤ delta)
    (hfit : (delta - 10429) * 1000 ≤ 2147483647) :
    convertuVToDegC delta = 490 + ((((delta - 10429) * 1000) / 220) * 10) / 1000 ∧
    500 ≤ convertuVToDegC delta ∧
    ∀ d, 10649 ≤ d → d ≤ delta → convertuVToDegC d ≤ convertuVToDegC delta := by
  have e1 : uVtoDegC_at (49 * 2) = 10429 := by decide
  have e2 : uVtoDegC_at ((49 + 1) * 2) = 10649 := by decide
  have e3 : uVtoDegC_at (49 * 2 + 1) = 490 := by decide
  have e4 : uVtoDegC_at ((49 + 1) * 2 + 1) = 500 := by decide
  have hval : convertuVToDegC delta = 490 + ((((delta - 10429) * 1000) / 220) * 10) / 1000 := by
    rw [convertuVToDegC_closed delta 49 (by omega) (le_refl _) (by omega)
      (fun h => absurd h (by omega)) (by omega), e1, e2, e3, e4]
  refine ⟨hval, ?_, fun d _ hd => convertuVToDegC_le_of_le d delta hd (by omega)⟩
  rw [hval]
  omega

/-- Witness for C4: 20000 microvolts, far above the table, reads 925 degrees. -/
theorem convertuVToDegC_extrapolates_witness :
    (10649 ≤ 20000 ∧ (20000 - 10429) * 1000 ≤ 2147483647) ∧
    convertuVToDegC 20000 = 490 + ((((20000 - 10429) * 1000) / 220) * 10) / 1000 ∧
    500 ≤ convertuVToDegC 20000 ∧
    ∀ d, 10649 ≤ d → d ≤ 20000 → convertuVToDegC d ≤ convertuVToDegC 20000 :=
  ⟨by decide, convertuVToDegC_extrapolates 20000 (by decide) (by decide)⟩



/-! ## Voltage reconstruction and calibration correction -/

/-- For a 16-bit code the two unsigned products of the reconstruction stay in range. -/
theorem reconstruct_no_wrap (rawADC : Nat) (hraw : rawADC < 65536) :
    u32 (rawADC * 33000) = rawADC * 33000 ∧
      u32 (u32 (rawADC * 33000) / (4096 * 8) * 100) = rawADC * 33000 / 32768 * 100 := by
  have h1 : u32 (rawADC * 33000) = rawADC * 33000 := u32_of_lt _ (by omega)
  rw [h1]
  exact ⟨rfl, u32_of_lt _ (by omega)⟩

/-- Without an active target, the function is the reconstruction followed by the clamped removal
of the offset. -/
theorem convertTipRawADCTouV_target_zero (b : Board) (rawADC : Nat) (hraw : rawADC < 65536)
    (hT : b.currentTempTargetDegC = 0) :
    convertTipRawADCTouV b rawADC
      = rawADC * 33000 / 32768 * 100 / b.OP_AMP_GAIN_STAGE - b.CalibrationOffset := by
  simp only [convertTipRawADCTouV, (reconstruct_no_wrap rawADC hraw).2, hT, gt_iff_lt,
    Nat.lt_irrefl, if_false]
  generalize rawADC * 33000 / 32768 * 100 / b.OP_AMP_GAIN_STAGE = v
  split_ifs <;> omega

/-- With an active target whose compensation product fits in 32 bits, the function subtracts the
compensation from the offset-corrected value only when that value exceeds it. -/
theorem convertTipRawADCTouV_target_pos (b : Board) (rawADC : Nat) (hraw : rawADC < 65536)
    (hT : 0 < b.currentTempTargetDegC)
    (hfit : 20625 * (10 * b.currentTempTargetDegC + 600) < 4294967296) :
    convertTipRawADCTouV b rawADC
      = if rawADC * 33000 / 32768 * 100 / b.OP_AMP_GAIN_STAGE - b.CalibrationOffset
            > 20625 * (10 * b.currentTempTargetDegC + 600) / 512 / b.OP_AMP_GAIN_STAGE then
          rawADC * 33000 / 32768 * 100 / b.OP_AMP_GAIN_STAGE - b.CalibrationOffset
            - 20625 * (10 * b.currentTempTargetDegC + 600) / 512 / b.OP_AMP_GAIN_STAGE
        else rawADC * 33000 / 32768 * 100 / b.OP_AMP_GAIN_STAGE - b.CalibrationOffset := by
  have e1 : u32 (b.currentTempTargetDegC * 10) = b.currentTempTargetDegC * 10 :=
    u32_of_lt _ (by omega)
  have e2 : u32 (b.currentTempTargetDegC * 10 + 600) = 10 * b.currentTempTargetDegC + 600 := by
    rw [u32_of_lt _ (by omega)]; omega
  have e3 : u32 (20625 * (10 * b.currentTempTargetDegC + 600))
      = 20625 * (10 * b.currentTempTargetDegC + 600) := u32_of_lt _ hfit
  simp only [convertTipRawADCTouV, (reconstruct_no_wrap rawADC hraw).2, e1, e2, e3, gt_iff_lt,
    hT, if_true]
  generalize rawADC * 33000 / 32768 * 100 / b.OP_AMP_GAIN_STAGE = v
  generalize 20625 * (10 * b.currentTempTargetDegC + 600) / 512 / b.OP_AMP_GAIN_STAGE = c
  split_ifs <;> omega



/-- Claim C5: with `CalibrationOffset = 0` and a target temperature of 0, for every 16-bit raw ADC
code and every gain constant `G ≥ 1`,
`convertTipRawADCTouV rawADC = (((rawADC * 33000) / 32768) * 100) / G` over the unbounded
naturals with truncating division; neither unsigned 32-bit product wraps. -/
theorem convertTipRawADCTouV_reconstruction (b : Board) (rawADC : Nat) (hraw : rawADC < 65536)
    (_hG : 1 ≤ b.OP_AMP_GAIN_STAGE) (hoff : b.CalibrationOffset = 0)
    (hT : b.currentTempTargetDegC = 0) :
    convertTipRawADCTouV b rawADC = (((rawADC * 33000) / 32768) * 100) / b.OP_AMP_GAIN_STAGE ∧
    rawADC * 33000 < 4294967296 ∧ ((rawADC * 33000) / 32768) * 100 < 4294967296 := by
  refine ⟨?_, by omega, by omega⟩
  rw [convertTipRawADCTouV_target_zero b rawADC hraw hT, hoff, Nat.sub_zero]

/-- Witness for C5: the full-scale code 65535 at gain 317. -/
theorem convertTipRawADCTouV_reconstruction_witness :
    (65535 < 65536 ∧ 1 ≤ (Board.mk 317 0 0 (fun _ => 65535) 0 0).OP_AMP_GAIN_STAGE) ∧
    (convertTipRawADCTouV (Board.mk 317 0 0 (fun _ => 65535) 0 0) 65535
        = (((65535 * 33000) / 32768) * 100) / 317 ∧
      65535 * 33000 < 4294967296 ∧ ((65535 * 33000) / 32768) * 100 < 4294967296) :=
  ⟨by decide, convertTipRawADCTouV_reconstruction (Board.mk 317 0 0 (fun _ => 65535) 0 0) 65535
    (by decide) (by decide) rfl rfl⟩

/-- Claim C6: removing the calibration offset never underflows. For every 16-bit raw ADC code,
gain constant `G ≥ 1`, non-zero `CalibrationOffset` and every target temperature: when the
reconstructed value `(((rawADC * 33000) / 32768) * 100) / G` is below the offset,
`convertTipRawADCTouV` returns exactly 0; when it is at or above the offset and the target is 0,
it returns the exact difference. -/
theorem convertTipRawADCTouV_offset_clamped (b : Board) (rawADC : Nat) (hraw : rawADC < 65536)
    (_hG : 1 ≤ b.OP_AMP_GAIN_STAGE) (hoff : b.CalibrationOffset ≠ 0) :
    ((((rawADC * 33000) / 32768) * 100) / b.OP_AMP_GAIN_STAGE < b.CalibrationOffset →
      convertTipRawADCTouV b rawADC = 0) ∧
    (b.CalibrationOffset ≤ (((rawADC * 33000) / 32768) * 100) / b.OP_AMP_GAIN_STAGE →
      b.currentTempTargetDegC = 0 →
      convertTipRawADCTouV b rawADC
        = (((rawADC * 33000) / 32768) * 100) / b.OP_AMP_GAIN_STAGE - b.CalibrationOffset ∧
      convertTipRawADCTouV b rawADC + b.CalibrationOffset
        = (((rawADC * 33000) / 32768) * 100) / b.OP_AMP_GAIN_STAGE) := by
  constructor
  · intro hlt
    have hge : ¬ rawADC * 33000 / 32768 * 100 / b.OP_AMP_GAIN_STAGE ≥ b.CalibrationOffset := by
      omega
    simp only [convertTipRawADCTouV, (reconstruct_no_wrap rawADC hraw).2, if_pos hoff,
      if_neg hge, gt_iff_lt, Nat.not_lt_zero, if_false, ite_self]
  · intro hle hT
    rw [convertTipRawADCTouV_target_zero b rawADC hraw hT]
    omega

/-- Witness for C6: code 100 reconstructs to 31 microvolts, below an offset of 900. -/
theorem convertTipRawADCTouV_offset_clamped_witness :
    (100 < 65536 ∧ 1 ≤ (Board.mk 317 900 300 (fun _ => 100) 0 0).OP_AMP_GAIN_STAGE ∧
      (Board.mk 317 900 300 (fun _ => 100) 0 0).CalibrationOffset ≠ 0 ∧
      (((100 * 33000) / 32768) * 100) / 317 < 900) ∧
    convertTipRawADCTouV (Board.mk 317 900 300 (fun _ => 100) 0 0) 100 = 0 :=
  ⟨by decide, (convertTipRawADCTouV_offset_clamped (Board.mk 317 900 300 (fun _ => 100) 0 0) 100
    (by decide) (by decide) (by decide)).1 (by decide)⟩

/-- Claim C7: the dynamic bias compensation never drives the microvolts negative. For every 16-bit
raw ADC code, `CalibrationOffset`, gain constant `G ≥ 1` and target temperature `T > 0` for which
`20625 * (10 * T + 600)` fits in 32 bits, let `v` be the value after offset removal (the
reconstructed value minus the offset, clamped at 0, which is the subtraction of `Nat`) and
`c = ((20625 * (10 * T + 600)) / 512) / G`. Then `convertTipRawADCTouV` returns `v - c` when
`v > c` and `v` unchanged otherwise; the result never exceeds `v` and is 0 only when `v` is 0. -/
theorem convertTipRawADCTouV_bias (b : Board) (rawADC : Nat) (hraw : rawADC < 65536)
    (_hG : 1 ≤ b.OP_AMP_GAIN_STAGE) (hT : 0 < b.currentTempTargetDegC)
    (hfit : 20625 * (10 * b.currentTempTargetDegC + 600) < 4294967296) :
    convertTipRawADCTouV b rawADC
      = (if (((rawADC * 33000) / 32768) * 100) / b.OP_AMP_GAIN_STAGE - b.CalibrationOffset
            > ((20625 * (10 * b.currentTempTargetDegC + 600)) / 512) / b.OP_AMP_GAIN_STAGE then
          (((rawADC * 33000) / 32768) * 100) / b.OP_AMP_GAIN_STAGE - b.CalibrationOffset
            - ((20625 * (10 * b.currentTempTargetDegC + 600)) / 512) / b.OP_AMP_GAIN_STAGE
        else (((rawADC * 33000) / 32768) * 100) / b.OP_AMP_GAIN_STAGE - b.CalibrationOffset) ∧
    convertTipRawADCTouV b rawADC
      ≤ (((rawADC * 33000) / 32768) * 100) / b.OP_AMP_GAIN_STAGE - b.CalibrationOffset ∧
    (convertTipRawADCTouV b rawADC = 0 →
      (((rawADC * 33000) / 32768) * 100) / b.OP_AMP_GAIN_STAGE - b.CalibrationOffset = 0) := by
  rw [convertTipRawADCTouV_target_pos b rawADC hraw hT hfit]
  generalize rawADC * 33000 / 32768 * 100 / b.OP_AMP_GAIN_STAGE - b.CalibrationOffset = v
  generalize 20625 * (10 * b.currentTempTargetDegC + 600) / 512 / b.OP_AMP_GAIN_STAGE = c
  refine ⟨rfl, ?_, ?_⟩ <;> split_ifs <;> omega

/-- Witness for C7: code 20000 at gain 317 with an offset of 900 and a target of 300 degrees;
the corrected 5453 microvolts exceed the compensation of 457 and drop to 4996. -/
theorem convertTipRawADCTouV_bias_witness :
    (20000 < 65536 ∧ 1 ≤ (Board.mk 317 900 300 (fun _ => 20000) 0 0).OP_AMP_GAIN_STAGE ∧
      0 < (Board.mk 317 900 300 (fun _ => 20000) 0 0).currentTempTargetDegC ∧
      20625 * (10 * (Board.mk 317 900 300 (fun _ => 20000) 0 0).currentTempTargetDegC + 600)
        < 4294967296) ∧
    convertTipRawADCTouV (Board.mk 317 900 300 (fun _ => 20000) 0 0) 20000 = 4996 :=
  ⟨by decide, by
    have h := (convertTipRawADCTouV_bias (Board.mk 317 900 300 (fun _ => 20000) 0 0) 20000
      (by decide) (by decide) (by decide) (by decide)).1
    rw [h]; decide⟩



/-! ## The reported temperature -/

/-- Whatever the offset and the target, the corrected value never exceeds the reconstruction. -/
theorem convertTipRawADCTouV_le (b : Board) (rawADC : Nat) (hraw : rawADC < 65536) :
    convertTipRawADCTouV b rawADC ≤ rawADC * 33000 / 32768 * 100 / b.OP_AMP_GAIN_STAGE := by
  simp only [convertTipRawADCTouV, (reconstruct_no_wrap rawADC hraw).2]
  generalize rawADC * 33000 / 32768 * 100 / b.OP_AMP_GAIN_STAGE = v
  generalize u32 (20625 * u32 (u32 (b.currentTempTargetDegC * 10) + 600)) / 512
    / b.OP_AMP_GAIN_STAGE = c
  split_ifs <;> omega

/-- For an in-range code and a gain of at least 2 the corrected value is small enough for the
interpolation not to overflow. -/
theorem convertTipRawADCTouV_fits (b : Board) (rawADC : Nat) (hraw : rawADC ≤ 32767)
    (hG : 2 ≤ b.OP_AMP_GAIN_STAGE) :
    (convertTipRawADCTouV b rawADC - 10429) * 1000 < 2147483648 := by
  have h1 := convertTipRawADCTouV_le b rawADC (by omega)
  have h2 : rawADC * 33000 / 32768 * 100 / b.OP_AMP_GAIN_STAGE
      ≤ rawADC * 33000 / 32768 * 100 / 2 := Nat.div_le_div_left hG (by omega)
  omega

/-- Without an active target the corrected value is non-decreasing in the raw code. -/
theorem convertTipRawADCTouV_mono (b : Board) (a c : Nat) (hac : a ≤ c) (hc : c < 65536)
    (hT : b.currentTempTargetDegC = 0) :
    convertTipRawADCTouV b a ≤ convertTipRawADCTouV b c := by
  rw [convertTipRawADCTouV_target_zero b a (by omega) hT,
    convertTipRawADCTouV_target_zero b c hc hT]
  apply Nat.sub_le_sub_right
  apply Nat.div_le_div_right
  apply Nat.mul_le_mul_right
  apply Nat.div_le_div_right
  exact Nat.mul_le_mul_right _ hac

/-- For any 16-bit code and a gain of at least 4 the corrected value is small enough for the
interpolation not to overflow. -/
theorem convertTipRawADCTouV_fits_gain4 (b : Board) (rawADC : Nat) (hraw : rawADC < 65536)
    (hG : 4 ≤ b.OP_AMP_GAIN_STAGE) :
    (convertTipRawADCTouV b rawADC - 10429) * 1000 < 2147483648 := by
  have h1 := convertTipRawADCTouV_le b rawADC hraw
  have h2 : rawADC * 33000 / 32768 * 100 / b.OP_AMP_GAIN_STAGE
      ≤ rawADC * 33000 / 32768 * 100 / 4 := Nat.div_le_div_left hG (by omega)
  omega

/-- The corrected value is non-decreasing from a code `a` to a code `c` when no target is active,
or when the compensation is at most half of, or at least, the offset-corrected value at `c`. -/
theorem convertTipRawADCTouV_le_of_le (b : Board) (a c : Nat) (hac : a ≤ c) (hc : c < 65536)
    (hT : b.currentTempTargetDegC = 0 ∨
      (20625 * (10 * b.currentTempTargetDegC + 600) < 4294967296 ∧
        (2 * (20625 * (10 * b.currentTempTargetDegC + 600) / 512 / b.OP_AMP_GAIN_STAGE)
            ≤ c * 33000 / 32768 * 100 / b.OP_AMP_GAIN_STAGE - b.CalibrationOffset ∨
          c * 33000 / 32768 * 100 / b.OP_AMP_GAIN_STAGE - b.CalibrationOffset
            ≤ 20625 * (10 * b.currentTempTargetDegC + 600) / 512 / b.OP_AMP_GAIN_STAGE))) :
    convertTipRawADCTouV b a ≤ convertTipRawADCTouV b c := by
  rcases Nat.eq_zero_or_pos b.currentTempTargetDegC with h0 | hpos
  · exact convertTipRawADCTouV_mono b a c hac hc h0
  rcases hT with h0 | ⟨hfit, hcond⟩
  · omega
  have hm : a * 33000 / 32768 * 100 / b.OP_AMP_GAIN_STAGE - b.CalibrationOffset
      ≤ c * 33000 / 32768 * 100 / b.OP_AMP_GAIN_STAGE - b.CalibrationOffset := by
    apply Nat.sub_le_sub_right
    apply Nat.div_le_div_right
    apply Nat.mul_le_mul_right
    apply Nat.div_le_div_right
    exact Nat.mul_le_mul_right _ hac
  rw [convertTipRawADCTouV_target_pos b a (by omega) hpos hfit,
    convertTipRawADCTouV_target_pos b c hc hpos hfit]
  generalize a * 33000 / 32768 * 100 / b.OP_AMP_GAIN_STAGE - b.CalibrationOffset = m at hm ⊢
  generalize c * 33000 / 32768 * 100 / b.OP_AMP_GAIN_STAGE - b.CalibrationOffset = w
    at hm hcond ⊢
  generalize 20625 * (10 * b.currentTempTargetDegC + 600) / 512 / b.OP_AMP_GAIN_STAGE = k
    at hcond ⊢
  split_ifs <;> omega

/-- When the intermediate sums fit in an `int32_t`, `getTipInC` is the clamped difference. -/
theorem getTipInC_eq (b : Board) (sampleNow : Bool)
    (hsum : convertTipRawADCToDegC b (b.getTipRawTemp sampleNow) + b.getHandleTemperature / 10
      < 2147483648)
    (hp : b.x10WattHistory_average < 4294967296) :
    getTipInC b sampleNow
      = convertTipRawADCToDegC b (b.getTipRawTemp sampleNow) + b.getHandleTemperature / 10
        - b.x10WattHistory_average / 25 := by
  simp only [getTipInC]
  generalize convertTipRawADCToDegC b (b.getTipRawTemp sampleNow) = d at hsum ⊢
  generalize hh : b.getHandleTemperature / 10 = h at hsum ⊢
  have hq : b.x10WattHistory_average / 25 ≤ 171798691 := by omega
  generalize b.x10WattHistory_average / 25 = q at hq ⊢
  rw [i32_natCast d (by omega), i32_of_range ((d : Int) + (h : Int)) (by omega) (by omega),
    i32_of_range ((d : Int) + (h : Int) - (q : Int)) (by omega) (by omega)]
  unfold toU32
  split_ifs <;> omega

/-- Claim C8 (as amended): with a gain constant `G ≥ 2`, for every raw ADC code up to the
backed-off code `0x7FFF - 400` that `getTipMaxInC` itself converts, and every `CalibrationOffset`,
handle temperature and power average (32-bit) held the same in both calls, the reading exceeds
the maximum by no more than the 1-degree margin, `getTipInC ≤ getTipMaxInC + 1`, provided the
target temperature `T` is 0 or, for `T > 0` with `20625 * (10 * T + 600)` in 32-bit range, the
compensation `c = ((20625 * (10 * T + 600)) / 512) / G` and the offset-corrected value
`w = (((0x7FFF - 400) * 33000) / 32768 * 100) / G - CalibrationOffset` (clamped at 0) of the
backed-off code satisfy `2 * c ≤ w` or `w ≤ c`. -/
theorem getTipInC_le_getTipMaxInC (b : Board) (sampleNow : Bool)
    (hraw : b.getTipRawTemp sampleNow ≤ 0x7FFF - (80 * 5)) (hG : 2 ≤ b.OP_AMP_GAIN_STAGE)
    (hT : b.currentTempTargetDegC = 0 ∨
      (20625 * (10 * b.currentTempTargetDegC + 600) < 4294967296 ∧
        (2 * (20625 * (10 * b.currentTempTargetDegC + 600) / 512 / b.OP_AMP_GAIN_STAGE)
            ≤ (0x7FFF - (80 * 5)) * 33000 / 32768 * 100 / b.OP_AMP_GAIN_STAGE
              - b.CalibrationOffset ∨
          (0x7FFF - (80 * 5)) * 33000 / 32768 * 100 / b.OP_AMP_GAIN_STAGE - b.CalibrationOffset
            ≤ 20625 * (10 * b.currentTempTargetDegC + 600) / 512 / b.OP_AMP_GAIN_STAGE)))
    (hh : b.getHandleTemperature < 4294967296)
    (hp : b.x10WattHistory_average < 4294967296) :
    getTipInC b sampleNow ≤ getTipMaxInC b + 1 := by
  have hfit := convertTipRawADCTouV_fits b (0x7FFF - (80 * 5)) (by omega) hG
  have hmono : convertTipRawADCToDegC b (b.getTipRawTemp sampleNow)
      ≤ convertTipRawADCToDegC b (0x7FFF - (80 * 5)) :=
    convertuVToDegC_le_of_le _ _
      (convertTipRawADCTouV_le_of_le b _ (0x7FFF - (80 * 5)) hraw (by omega) hT) hfit
  have hle : convertTipRawADCToDegC b (0x7FFF - (80 * 5)) ≤ 98102 := convertuVToDegC_le _ hfit
  rw [getTipInC_eq b sampleNow (by omega) hp]
  simp only [getTipMaxInC]
  generalize convertTipRawADCToDegC b (b.getTipRawTemp sampleNow) = d at hmono ⊢
  generalize convertTipRawADCToDegC b (0x7FFF - (80 * 5)) = m at hmono hle ⊢
  have hh10 : b.getHandleTemperature / 10 ≤ 429496729 := by omega
  generalize b.getHandleTemperature / 10 = h at hh10 ⊢
  rw [u32_of_lt _ (by omega)]
  unfold toU32
  omega

/-- Witness for C8 (as amended), with an active target: gain 317, offset 900, target 300 (the
compensation 457 is less than half of the 9382 microvolts of the backed-off code), handle at 25
degrees, no power, at the backed-off code itself. -/
theorem getTipInC_le_getTipMaxInC_witness :
    ((Board.mk 317 900 300 (fun _ => 32367) 250 0).getTipRawTemp true ≤ 0x7FFF - (80 * 5) ∧
      2 ≤ (Board.mk 317 900 300 (fun _ => 32367) 250 0).OP_AMP_GAIN_STAGE ∧
      20625 * (10 * (Board.mk 317 900 300 (fun _ => 32367) 250 0).currentTempTargetDegC + 600)
        < 4294967296 ∧
      2 * (20625 * (10 * 300 + 600) / 512 / 317)
        ≤ (0x7FFF - (80 * 5)) * 33000 / 32768 * 100 / 317 - 900) ∧
    getTipInC (Board.mk 317 900 300 (fun _ => 32367) 250 0) true
      ≤ getTipMaxInC (Board.mk 317 900 300 (fun _ => 32367) 250 0) + 1 :=
  ⟨by decide, getTipInC_le_getTipMaxInC (Board.mk 317 900 300 (fun _ => 32367) 250 0) true
    (by decide) (by decide) (Or.inr ⟨by decide, Or.inl (by decide)⟩) (by decide) (by decide)⟩

/-- Counterexample to C8 as stated: under identical conditions (gain 317, handle at 25 degrees,
no power) `getTipMaxInC` does not exceed `getTipInC` (i) at the backed-off code 32367 itself
(507 against 508) and (ii) at the in-range code 32767 (507 against 514); (iii) with an active
target whose compensation 457 lies between half of and the whole of the 458 microvolts of the
backed-off code, the reading is above the maximum by more than 1 below that code too (code 32363,
offset 9824, target 300: 24 against 48). -/
theorem getTipMaxInC_exceeds_counterexample :
    (getTipMaxInC (Board.mk 317 0 0 (fun _ => 32367) 250 0) = 507 ∧
      getTipInC (Board.mk 317 0 0 (fun _ => 32367) 250 0) true = 508 ∧
      ¬ (getTipMaxInC (Board.mk 317 0 0 (fun _ => 32367) 250 0)
          > getTipInC (Board.mk 317 0 0 (fun _ => 32367) 250 0) true)) ∧
    (getTipMaxInC (Board.mk 317 0 0 (fun _ => 32767) 250 0) = 507 ∧
      getTipInC (Board.mk 317 0 0 (fun _ => 32767) 250 0) true = 514) ∧
    (getTipMaxInC (Board.mk 317 9824 300 (fun _ => 32363) 250 0) = 24 ∧
      getTipInC (Board.mk 317 9824 300 (fun _ => 32363) 250 0) true = 48) := by
  decide

/-- Claim C9: for every 16-bit raw ADC code, handle temperature `h` and power average `p` (32-bit
values), with all settings fixed and the gain constant at least 4 (at least 2 is enough for the
codes `0..32767`), so that the `int32_t` arithmetic of `LinearInterpolate` does not overflow,
`getTipInC` returns `max 0 (convertTipRawADCToDegC rawADC + h / 10 - p / 25)` with truncating
division: the power correction is subtracted and a negative intermediate is clamped to 0 instead
of wrapping to a large unsigned value. -/
theorem getTipInC_clamped (b : Board) (sampleNow : Bool)
    (hraw : b.getTipRawTemp sampleNow < 65536)
    (hG : 4 ≤ b.OP_AMP_GAIN_STAGE ∨
      (2 ≤ b.OP_AMP_GAIN_STAGE ∧ b.getTipRawTemp sampleNow ≤ 32767))
    (hh : b.getHandleTemperature < 4294967296)
    (hp : b.x10WattHistory_average < 4294967296) :
    (getTipInC b sampleNow : Int)
      = max 0 ((convertTipRawADCToDegC b (b.getTipRawTemp sampleNow) : Int)
          + ((b.getHandleTemperature / 10 : Nat) : Int)
          - ((b.x10WattHistory_average / 25 : Nat) : Int)) := by
  have hfit : (convertTipRawADCTouV b (b.getTipRawTemp sampleNow) - 10429) * 1000
      < 2147483648 := by
    rcases hG with h4 | ⟨h2, hr⟩
    · exact convertTipRawADCTouV_fits_gain4 b _ hraw h4
    · exact convertTipRawADCTouV_fits b _ hr h2
  have hle : convertTipRawADCToDegC b (b.getTipRawTemp sampleNow) ≤ 98102 :=
    convertuVToDegC_le _ hfit
  rw [getTipInC_eq b sampleNow (by omega) hp, max_def]
  split_ifs <;> omega

/-- Witness for C9: at gain 317 the code 40000, above the in-range codes, converts to 593
degrees; with the handle at 25 degrees and a power average of 1000 the reading is
`max 0 (593 + 25 - 40) = 578`. -/
theorem getTipInC_clamped_witness :
    ((Board.mk 317 0 0 (fun _ => 40000) 250 1000).getTipRawTemp true < 65536 ∧
      4 ≤ (Board.mk 317 0 0 (fun _ => 40000) 250 1000).OP_AMP_GAIN_STAGE ∧
      (Board.mk 317 0 0 (fun _ => 40000) 250 1000).getHandleTemperature < 4294967296 ∧
      (Board.mk 317 0 0 (fun _ => 40000) 250 1000).x10WattHistory_average < 4294967296) ∧
    (getTipInC (Board.mk 317 0 0 (fun _ => 40000) 250 1000) true : Int)
      = max 0 ((convertTipRawADCToDegC (Board.mk 317 0 0 (fun _ => 40000) 250 1000) 40000 : Int)
          + ((250 / 10 : Nat) : Int) - ((1000 / 25 : Nat) : Int)) :=
  ⟨by decide, getTipInC_clamped (Board.mk 317 0 0 (fun _ => 40000) 250 1000) true
    (by decide) (Or.inl (by decide)) (by decide) (by decide)⟩

/-- Claim C10: end-to-end zero input. With `rawADC = 0`, `CalibrationOffset = 0` and a target
temperature of 0, for every gain constant `G ≥ 1`, `convertTipRawADCToDegC 0 = 0`; therefore
`getTipInC` equals `HandleTemperature / 10` minus `PowerHistory.average() / 25` clamped at 0
(the subtraction of `Nat`), which is exactly `HandleTemperature / 10` when the power average is
below 25. Handle temperature and power average are unsigned values of at most 32 bits. -/
theorem getTipInC_zero_input (b : Board) (sampleNow : Bool)
    (hraw : b.getTipRawTemp sampleNow = 0) (hoff : b.CalibrationOffset = 0)
    (hT : b.currentTempTargetDegC = 0) (_hG : 1 ≤ b.OP_AMP_GAIN_STAGE)
    (hh : b.getHandleTemperature < 4294967296) (hp : b.x10WattHistory_average < 4294967296) :
    convertTipRawADCToDegC b 0 = 0 ∧
    getTipInC b sampleNow = b.getHandleTemperature / 10 - b.x10WattHistory_average / 25 ∧
    (b.x10WattHistory_average < 25 → getTipInC b sampleNow = b.getHandleTemperature / 10) := by
  have hz : convertTipRawADCToDegC b 0 = 0 := by
    have : convertTipRawADCTouV b 0 = 0 := by
      rw [convertTipRawADCTouV_target_zero b 0 (by omega) hT, hoff]
      simp
    simp only [convertTipRawADCToDegC, this, convertuVToDegC_zero]
  have hval : getTipInC b sampleNow
      = b.getHandleTemperature / 10 - b.x10WattHistory_average / 25 := by
    rw [getTipInC_eq b sampleNow (by rw [hraw, hz]; omega) hp, hraw, hz, Nat.zero_add]
  refine ⟨hz, hval, fun hlt => ?_⟩
  rw [hval]
  omega

/-- Witness for C10: gain 317, handle at 25.3 degrees, one with a power average of 60 and one
below 25. -/
theorem getTipInC_zero_input_witness :
    ((Board.mk 317 0 0 (fun _ => 0) 253 60).getTipRawTemp true = 0 ∧
      1 ≤ (Board.mk 317 0 0 (fun _ => 0) 253 60).OP_AMP_GAIN_STAGE) ∧
    convertTipRawADCToDegC (Board.mk 317 0 0 (fun _ => 0) 253 60) 0 = 0 ∧
    getTipInC (Board.mk 317 0 0 (fun _ => 0) 253 60) true = 253 / 10 - 60 / 25 ∧
    getTipInC (Board.mk 317 0 0 (fun _ => 0) 253 24) true = 253 / 10 :=
  ⟨by decide,
    (getTipInC_zero_input (Board.mk 317 0 0 (fun _ => 0) 253 60) true rfl rfl rfl
      (by decide) (by decide) (by decide)).1,
    (getTipInC_zero_input (Board.mk 317 0 0 (fun _ => 0) 253 60) true rfl rfl rfl
      (by decide) (by decide) (by decide)).2.1,
    (getTipInC_zero_input (Board.mk 317 0 0 (fun _ => 0) 253 24) true rfl rfl rfl
      (by decide) (by decide) (by decide)).2.2 (by decide)⟩



/-! ## Fahrenheit conversions and the Fahrenheit reading -/

/-- Claim C11: truncation-tolerant round trip. For every `degC` such that `degC * 9` fits in 32
bits, `convertFtoC (convertCtoF degC)` is either `degC - 1` or `degC`, and it is exactly `degC`
when `degC` is a multiple of 5; for `degC = 100` the result is 99 or 100. -/
theorem convertFtoC_convertCtoF (degC : Nat) (hfit : degC * 9 < 4294967296) :
    (convertFtoC (convertCtoF degC) + 1 = degC ∨ convertFtoC (convertCtoF degC) = degC) ∧
    (5 ∣ degC → convertFtoC (convertCtoF degC) = degC) ∧
    (convertFtoC (convertCtoF 100) = 99 ∨ convertFtoC (convertCtoF 100) = 100) := by
  have e1 : u32 (degC * 9) = degC * 9 := u32_of_lt _ hfit
  have e2 : u32 (32 + degC * 9 / 5) = 32 + degC * 9 / 5 := u32_of_lt _ (by omega)
  have e3 : u32 ((32 + degC * 9 / 5 - 32) * 5) = (32 + degC * 9 / 5 - 32) * 5 :=
    u32_of_lt _ (by omega)
  have hval : convertFtoC (convertCtoF degC) = (32 + degC * 9 / 5 - 32) * 5 / 9 := by
    simp only [convertCtoF, convertFtoC, e1, e2, e3]
    rw [if_neg (by omega)]
  refine ⟨?_, ?_, Or.inr (by decide)⟩
  · rw [hval]; omega
  · intro hdvd
    rw [hval]; omega

/-- Witness for C11: 37 degrees Celsius go to 98 Fahrenheit and come back as 36. -/
theorem convertFtoC_convertCtoF_witness :
    37 * 9 < 4294967296 ∧ convertFtoC (convertCtoF 37) + 1 = 37 := by
  refine ⟨by decide, ?_⟩
  have h := (convertFtoC_convertCtoF 37 (by decide)).1
  have hne : convertFtoC (convertCtoF 37) ≠ 37 := by decide
  omega

/-- Claim C12, the code at the failing input: with gain 317, no offset, no target, code 20000 and
the handle at 25 degrees, raising the power average from 0 to 450 raises `getTipInF` from 650 to
660 (the term `p / 45` is added), while `getTipInC` falls from 326 to 308. -/
theorem getTipInF_power_added :
    getTipInF (Board.mk 317 0 0 (fun _ => 20000) 250 0) true = 650 ∧
    getTipInF (Board.mk 317 0 0 (fun _ => 20000) 250 450) true = 660 ∧
    getTipInC (Board.mk 317 0 0 (fun _ => 20000) 250 0) true = 326 ∧
    getTipInC (Board.mk 317 0 0 (fun _ => 20000) 250 450) true = 308 := by
  decide

/-- Claim C13, the code at the failing input: with a power average of 0, gain 317, no offset and
no target, (i) code 0 with the handle at 0 degrees gives `getTipInF = 64` against
`convertCtoF getTipInC = 32`, and (ii) code 20000 with the handle at 25 degrees gives 650 against
618: the handle offset is converted with `convertCtoF` on its own, so the 32 is added twice. -/
theorem getTipInF_offset_twice :
    (getTipInF (Board.mk 317 0 0 (fun _ => 0) 0 0) true = 64 ∧
      convertCtoF (getTipInC (Board.mk 317 0 0 (fun _ => 0) 0 0) true) = 32) ∧
    (getTipInF (Board.mk 317 0 0 (fun _ => 20000) 250 0) true = 650 ∧
      convertCtoF (getTipInC (Board.mk 317 0 0 (fun _ => 20000) 250 0) true) = 618) := by
  decide

/-- Claim C14, the code at the failing input: with gain 317, a calibration offset of 10282
microvolts (the whole reconstruction of the backed-off code), no target and the handle at 0
degrees, `convertTipRawADCToDegC (0x7FFF - 400) + HandleTemperature / 10` is 0 and `getTipMaxInC`
returns `0 - 1` wrapped to 4294967295. -/
theorem getTipMaxInC_wraps :
    convertTipRawADCToDegC (Board.mk 317 10282 0 (fun _ => 0) 0 0) (0x7FFF - (80 * 5))
      + (Board.mk 317 10282 0 (fun _ => 0) 0 0).getHandleTemperature / 10 = 0 ∧
    getTipMaxInC (Board.mk 317 10282 0 (fun _ => 0) 0 0) = 4294967295 := by
  decide

/-! ## The calibration table: claim -/

/-- Claim C15: the calibration table `uVtoDegC` is a well-formed curve. It has 51 pairs, its
first pair is `(0, 0)`, and from each pair to the next both the microvolt column and the
temperature column increase strictly, so that every divisor `x2 - x1` used by the interpolation
is strictly positive. -/
theorem uVtoDegC_well_formed :
    uVtoDegC.length = 2 * 51 ∧ noItems = 51 ∧
    (uVtoDegC_at 0 = 0 ∧ uVtoDegC_at 1 = 0) ∧
    ∀ k, k + 1 < noItems →
      uVtoDegC_at (k * 2) < uVtoDegC_at ((k + 1) * 2) ∧
      uVtoDegC_at (k * 2 + 1) < uVtoDegC_at ((k + 1) * 2 + 1) ∧
      0 < i32 ((uVtoDegC_at ((k + 1) * 2) : Int) - (uVtoDegC_at (k * 2) : Int)) := by
  refine ⟨by decide, by decide, by decide, fun k hk => ?_⟩
  have key : ∀ j, j < 50 →
      uVtoDegC_at (j * 2) < uVtoDegC_at ((j + 1) * 2) ∧
      uVtoDegC_at (j * 2 + 1) < uVtoDegC_at ((j + 1) * 2 + 1) ∧
      0 < i32 ((uVtoDegC_at ((j + 1) * 2) : Int) - (uVtoDegC_at (j * 2) : Int)) := by
    decide
  rw [noItems_eq] at hk
  exact key k (by omega)



/-! ## Exactness of the fixed-point interpolation -/

/-- With a step of 10 degrees the two truncations of the fixed-point formula amount to one. -/
theorem two_stage_div (d w : Nat) : d * 1000 / w * 10 / 1000 = d * 10 / w := by
  have h1 : d * 1000 / w * 10 / 1000 = d * 1000 / w / 100 :=
    Nat.mul_div_mul_right (d * 1000 / w) 100 (by omega : 0 < 10)
  have h2 : d * 1000 = d * 10 * 100 := by omega
  rw [h1, Nat.div_div_eq_div_mul, h2]
  exact Nat.mul_div_mul_right (d * 10) w (by omega : 0 < 100)

/-- The floor of a quotient of naturals in the rationals is the quotient of the naturals. -/
theorem floor_rat_div (m n : Nat) : ⌊((m : ℚ) / (n : ℚ))⌋ = ((m / n : Nat) : Int) := by
  have h := Rat.floor_intCast_div_natCast (m : ℤ) n
  rw [Int.cast_natCast] at h
  rw [h]
  norm_cast

/-- Claim C16: on this table the two-stage fixed-point truncation loses nothing against a single
exact division. For every microvolt delta `> 0` for which `(delta - 10429) * 1000` fits in an
`int32_t`, with `(x1, y1)`-`(x2, y2)` the pair that `convertuVToDegC` selects (the bracketing
pair, or the last pair from 10429 upwards),
`convertuVToDegC delta = y1 + floor (((delta - x1) * (y2 - y1)) / (x2 - x1))`, the floor of the
exact rational linear interpolation. -/
theorem convertuVToDegC_exact (delta : Nat) (h0 : 0 < delta)
    (hfit : (delta - 10429) * 1000 ≤ 2147483647) :
    ∃ j, j + 1 < noItems ∧
      (uVtoDegC_at (j * 2) ≤ delta ∧ (j + 2 < noItems → delta < uVtoDegC_at ((j + 1) * 2))) ∧
      convertuVToDegC delta
        = toU32 (LinearInterpolate (uVtoDegC_at (j * 2)) (uVtoDegC_at (j * 2 + 1))
            (uVtoDegC_at ((j + 1) * 2)) (uVtoDegC_at ((j + 1) * 2 + 1)) (i32 delta)) ∧
      convertuVToDegC delta
        = uVtoDegC_at (j * 2 + 1)
          + ((delta - uVtoDegC_at (j * 2)) * (uVtoDegC_at ((j + 1) * 2 + 1) - uVtoDegC_at (j * 2 + 1)))
              / (uVtoDegC_at ((j + 1) * 2) - uVtoDegC_at (j * 2)) ∧
      (convertuVToDegC delta : ℤ)
        = (uVtoDegC_at (j * 2 + 1) : ℤ)
          + ⌊(((delta : ℚ) - (uVtoDegC_at (j * 2) : ℚ))
                * ((uVtoDegC_at ((j + 1) * 2 + 1) : ℚ) - (uVtoDegC_at (j * 2 + 1) : ℚ)))
              / ((uVtoDegC_at ((j + 1) * 2) : ℚ) - (uVtoDegC_at (j * 2) : ℚ))⌋ := by
  obtain ⟨j, hj, hlo, hhi⟩ := exists_pair delta
  obtain ⟨hstep, hy⟩ := uVtoDegC_step j (by omega)
  have hnat : convertuVToDegC delta
      = uVtoDegC_at (j * 2 + 1)
        + ((delta - uVtoDegC_at (j * 2))
            * (uVtoDegC_at ((j + 1) * 2 + 1) - uVtoDegC_at (j * 2 + 1)))
            / (uVtoDegC_at ((j + 1) * 2) - uVtoDegC_at (j * 2)) := by
    rw [convertuVToDegC_closed delta j (by omega) hj hlo hhi (by omega), hy,
      Nat.add_sub_cancel_left, two_stage_div]
  refine ⟨j, by rw [noItems_eq]; omega, ⟨hlo, fun h => hhi (by rw [noItems_eq] at h; omega)⟩,
    convertuVToDegC_pair delta j (by omega) hj hlo hhi, hnat, ?_⟩
  have c1 : ((delta : ℚ) - (uVtoDegC_at (j * 2) : ℚ))
      = ((delta - uVtoDegC_at (j * 2) : Nat) : ℚ) := (Nat.cast_sub hlo).symm
  have c2 : ((uVtoDegC_at ((j + 1) * 2 + 1) : ℚ) - (uVtoDegC_at (j * 2 + 1) : ℚ))
      = ((uVtoDegC_at ((j + 1) * 2 + 1) - uVtoDegC_at (j * 2 + 1) : Nat) : ℚ) :=
    (Nat.cast_sub (by omega)).symm
  have c3 : ((uVtoDegC_at ((j + 1) * 2) : ℚ) - (uVtoDegC_at (j * 2) : ℚ))
      = ((uVtoDegC_at ((j + 1) * 2) - uVtoDegC_at (j * 2) : Nat) : ℚ) :=
    (Nat.cast_sub (by omega)).symm
  rw [c1, c2, c3, ← Nat.cast_mul, floor_rat_div, hnat]
  push_cast
  rfl

/-- Witness for C16: 1006 microvolts lie in the steep segment 1005..1007 and read 55 degrees. -/
theorem convertuVToDegC_exact_witness :
    (0 < 1006 ∧ (1006 - 10429) * 1000 ≤ 2147483647) ∧
    ∃ j, j + 1 < noItems ∧
      (uVtoDegC_at (j * 2) ≤ 1006 ∧ (j + 2 < noItems → 1006 < uVtoDegC_at ((j + 1) * 2))) ∧
      convertuVToDegC 1006
        = toU32 (LinearInterpolate (uVtoDegC_at (j * 2)) (uVtoDegC_at (j * 2 + 1))
            (uVtoDegC_at ((j + 1) * 2)) (uVtoDegC_at ((j + 1) * 2 + 1)) (i32 1006)) ∧
      convertuVToDegC 1006
        = uVtoDegC_at (j * 2 + 1)
          + ((1006 - uVtoDegC_at (j * 2)) * (uVtoDegC_at ((j + 1) * 2 + 1) - uVtoDegC_at (j * 2 + 1)))
              / (uVtoDegC_at ((j + 1) * 2) - uVtoDegC_at (j * 2)) ∧
      (convertuVToDegC 1006 : ℤ)
        = (uVtoDegC_at (j * 2 + 1) : ℤ)
          + ⌊((((1006 : Nat) : ℚ) - (uVtoDegC_at (j * 2) : ℚ))
                * ((uVtoDegC_at ((j + 1) * 2 + 1) : ℚ) - (uVtoDegC_at (j * 2 + 1) : ℚ)))
              / ((uVtoDegC_at ((j + 1) * 2) : ℚ) - (uVtoDegC_at (j * 2) : ℚ))⌋ :=
  ⟨by decide, convertuVToDegC_exact 1006 (by decide) (by decide)⟩



/-! ## Absence of overflow for in-range samples -/

/-- On the selected pair, away from overflow, the scaled numerator fits in an `int32_t` and the
quotient is at most 9761289. -/
theorem interp_quotient_bounds (x j : Nat) (hj : j ≤ 49)
    (hlo : uVtoDegC_at (j * 2) ≤ x) (hhi : j < 49 → x < uVtoDegC_at ((j + 1) * 2))
    (hfit : (x - 10429) * 1000 < 2147483648) :
    (x - uVtoDegC_at (j * 2)) * 1000 < 2147483648 ∧
    (x - uVtoDegC_at (j * 2)) * 1000 / (uVtoDegC_at ((j + 1) * 2) - uVtoDegC_at (j * 2))
      ≤ 9761289 := by
  obtain ⟨hstep, -⟩ := uVtoDegC_step j (by omega)
  obtain ⟨hb2, -⟩ := uVtoDegC_bounds (j + 1) (by omega)
  rcases Nat.lt_or_ge j 49 with h | h
  · have hx := hhi h
    have : (x - uVtoDegC_at (j * 2)) * 1000
        / (uVtoDegC_at ((j + 1) * 2) - uVtoDegC_at (j * 2)) < 1000 := by
      rw [Nat.div_lt_iff_lt_mul (by omega), Nat.mul_comm 1000]
      exact Nat.mul_lt_mul_of_pos_right (by omega) (by omega)
    exact ⟨by omega, by omega⟩
  · have hj49 : j = 49 := by omega
    subst hj49
    have e1 : uVtoDegC_at (49 * 2) = 10429 := by decide
    have e2 : uVtoDegC_at ((49 + 1) * 2) = 10649 := by decide
    rw [e1, e2]
    exact ⟨by omega, by omega⟩

/-- The intermediates of the exact interpolation for natural arguments, as naturals. -/
theorem LinearInterpolate_intermediates_nat (x1 y1 x2 y2 x : Nat) (hx : x1 ≤ x) (hx12 : x1 ≤ x2)
    (hy : y1 ≤ y2) :
    LinearInterpolate_intermediates x1 y1 x2 y2 x
      = [((x - x1 : Nat) : Int),
         (((x - x1) * 1000 : Nat) : Int),
         ((x2 - x1 : Nat) : Int),
         (((x - x1) * 1000 / (x2 - x1) : Nat) : Int),
         ((y2 - y1 : Nat) : Int),
         (((x - x1) * 1000 / (x2 - x1) * (y2 - y1) : Nat) : Int),
         (((x - x1) * 1000 / (x2 - x1) * (y2 - y1) / 1000 : Nat) : Int),
         ((y1 + (x - x1) * 1000 / (x2 - x1) * (y2 - y1) / 1000 : Nat) : Int)] := by
  have e1 : ((x : Int) - x1) = ((x - x1 : Nat) : Int) := by omega
  have e2 : ((x2 : Int) - x1) = ((x2 - x1 : Nat) : Int) := by omega
  have e3 : ((y2 : Int) - y1) = ((y2 - y1 : Nat) : Int) := by omega
  have e4 : (((x - x1 : Nat) : Int) * 1000) = (((x - x1) * 1000 : Nat) : Int) := by
    push_cast; rfl
  have e5 : (1000 : Int) = ((1000 : Nat) : Int) := rfl
  simp only [LinearInterpolate_intermediates, e1, e2, e3, e4, ← Int.ofNat_tdiv, ← Nat.cast_mul]
  rw [e5, ← Int.ofNat_tdiv, ← Nat.cast_add]



/-- Claim C17: no signed 32-bit overflow in the interpolation for in-range samples. For every raw
ADC code in `0..32767`, every gain constant `G ≥ 2`, every `CalibrationOffset` and every target
temperature, either the corrected value is 0 and `LinearInterpolate` is not called (the result is
0), or `convertTipRawADCToDegC` calls `LinearInterpolate` on the pair `j`, `j + 1` that brackets
the corrected value `x` (the last pair from 10429 upwards), and there: `x` converts to `int32_t`
unchanged, each intermediate (`x - x1`, `(x - x1) * 1000`, `x2 - x1`, the quotient, `y2 - y1`, the
product of the quotient with `y2 - y1`, its division by 1000 and the final sum), computed over
the unbounded integers, lies in the `int32_t` range, and the result equals the same formula over
the unbounded integers and is non-negative. -/
theorem convertTipRawADCToDegC_no_overflow (b : Board) (rawADC : Nat) (hraw : rawADC ≤ 32767)
    (hG : 2 ≤ b.OP_AMP_GAIN_STAGE) :
    (convertTipRawADCTouV b rawADC = 0 ∧ convertTipRawADCToDegC b rawADC = 0) ∨
    ∃ j, j + 1 < noItems ∧
      (uVtoDegC_at (j * 2) ≤ convertTipRawADCTouV b rawADC ∧
        (j + 2 < noItems → convertTipRawADCTouV b rawADC < uVtoDegC_at ((j + 1) * 2))) ∧
      convertTipRawADCToDegC b rawADC
        = toU32 (LinearInterpolate (uVtoDegC_at (j * 2)) (uVtoDegC_at (j * 2 + 1))
            (uVtoDegC_at ((j + 1) * 2)) (uVtoDegC_at ((j + 1) * 2 + 1))
            (i32 (convertTipRawADCTouV b rawADC))) ∧
      i32 (convertTipRawADCTouV b rawADC) = (convertTipRawADCTouV b rawADC : Int) ∧
      (∀ z ∈ LinearInterpolate_intermediates (uVtoDegC_at (j * 2)) (uVtoDegC_at (j * 2 + 1))
          (uVtoDegC_at ((j + 1) * 2)) (uVtoDegC_at ((j + 1) * 2 + 1))
          (convertTipRawADCTouV b rawADC), inInt32 z) ∧
      LinearInterpolate (uVtoDegC_at (j * 2)) (uVtoDegC_at (j * 2 + 1))
          (uVtoDegC_at ((j + 1) * 2)) (uVtoDegC_at ((j + 1) * 2 + 1))
          (i32 (convertTipRawADCTouV b rawADC))
        = LinearInterpolate_exact (uVtoDegC_at (j * 2)) (uVtoDegC_at (j * 2 + 1))
            (uVtoDegC_at ((j + 1) * 2)) (uVtoDegC_at ((j + 1) * 2 + 1))
            (convertTipRawADCTouV b rawADC) ∧
      (convertTipRawADCToDegC b rawADC : Int)
        = LinearInterpolate_exact (uVtoDegC_at (j * 2)) (uVtoDegC_at (j * 2 + 1))
            (uVtoDegC_at ((j + 1) * 2)) (uVtoDegC_at ((j + 1) * 2 + 1))
            (convertTipRawADCTouV b rawADC) ∧
      0 ≤ LinearInterpolate_exact (uVtoDegC_at (j * 2)) (uVtoDegC_at (j * 2 + 1))
            (uVtoDegC_at ((j + 1) * 2)) (uVtoDegC_at ((j + 1) * 2 + 1))
            (convertTipRawADCTouV b rawADC) := by
  have hfit := convertTipRawADCTouV_fits b rawADC hraw hG
  simp only [convertTipRawADCToDegC]
  generalize convertTipRawADCTouV b rawADC = x at hfit ⊢
  rcases Nat.eq_zero_or_pos x with hx | hx
  · left; exact ⟨hx, by rw [hx]; exact convertuVToDegC_zero⟩
  right
  obtain ⟨j, hj, hlo, hhi⟩ := exists_pair x
  obtain ⟨hstep, hy⟩ := uVtoDegC_step j (by omega)
  obtain ⟨hb1, hy1⟩ := uVtoDegC_bounds j (by omega)
  obtain ⟨hb2, hy2⟩ := uVtoDegC_bounds (j + 1) (by omega)
  obtain ⟨hnum, hq⟩ := interp_quotient_bounds x j hj hlo hhi hfit
  have hx31 : x < 2147483648 := by omega
  have hdy : uVtoDegC_at ((j + 1) * 2 + 1) - uVtoDegC_at (j * 2 + 1) = 10 := by omega
  have hexact : LinearInterpolate_exact (uVtoDegC_at (j * 2)) (uVtoDegC_at (j * 2 + 1))
      (uVtoDegC_at ((j + 1) * 2)) (uVtoDegC_at ((j + 1) * 2 + 1)) x
      = ((uVtoDegC_at (j * 2 + 1)
          + (x - uVtoDegC_at (j * 2)) * 1000
              / (uVtoDegC_at ((j + 1) * 2) - uVtoDegC_at (j * 2))
            * (uVtoDegC_at ((j + 1) * 2 + 1) - uVtoDegC_at (j * 2 + 1)) / 1000 : Nat) : Int) := by
    have h := LinearInterpolate_intermediates_nat (uVtoDegC_at (j * 2)) (uVtoDegC_at (j * 2 + 1))
      (uVtoDegC_at ((j + 1) * 2)) (uVtoDegC_at ((j + 1) * 2 + 1)) x hlo (by omega) (by omega)
    simp only [LinearInterpolate_intermediates, List.cons.injEq, and_true] at h
    exact h.2.2.2.2.2.2.2
  have hmach := LinearInterpolate_nat (uVtoDegC_at (j * 2)) (uVtoDegC_at (j * 2 + 1))
    (uVtoDegC_at ((j + 1) * 2)) (uVtoDegC_at ((j + 1) * 2 + 1)) x hlo hstep (by omega)
    (by omega) (by omega) hnum (by rw [hdy]; omega) (by rw [hdy]; omega)
  have hpair := convertuVToDegC_pair x j (by omega) hj hlo hhi
  refine ⟨j, by rw [noItems_eq]; omega, ⟨hlo, fun h => hhi (by rw [noItems_eq] at h; omega)⟩,
    hpair, i32_natCast x hx31, ?_, ?_, ?_, ?_⟩
  · rw [LinearInterpolate_intermediates_nat _ _ _ _ x hlo (by omega) (by omega), hdy]
    generalize (x - uVtoDegC_at (j * 2)) * 1000
      / (uVtoDegC_at ((j + 1) * 2) - uVtoDegC_at (j * 2)) = q at hq
    intro z hz
    simp only [List.mem_cons, List.mem_singleton, List.not_mem_nil, or_false] at hz
    unfold inInt32
    rcases hz with h | h | h | h | h | h | h | h <;> subst h <;> omega
  · rw [i32_natCast x hx31, hmach, hexact]
  · rw [hpair, i32_natCast x hx31, hmach, hexact, toU32_natCast]
    rw [hdy]; omega
  · rw [hexact]; omega

/-- Witness for C17: code 20000 at gain 317 with an offset of 900 and a target of 300 degrees. -/
theorem convertTipRawADCToDegC_no_overflow_witness :
    (20000 ≤ 32767 ∧ 2 ≤ (Board.mk 317 900 300 (fun _ => 20000) 0 0).OP_AMP_GAIN_STAGE) ∧
    convertTipRawADCTouV (Board.mk 317 900 300 (fun _ => 20000) 0 0) 20000 ≠ 0 ∧
    ∃ j, j + 1 < noItems ∧
      (∀ z ∈ LinearInterpolate_intermediates (uVtoDegC_at (j * 2)) (uVtoDegC_at (j * 2 + 1))
          (uVtoDegC_at ((j + 1) * 2)) (uVtoDegC_at ((j + 1) * 2 + 1))
          (convertTipRawADCTouV (Board.mk 317 900 300 (fun _ => 20000) 0 0) 20000), inInt32 z) ∧
      (convertTipRawADCToDegC (Board.mk 317 900 300 (fun _ => 20000) 0 0) 20000 : Int)
        = LinearInterpolate_exact (uVtoDegC_at (j * 2)) (uVtoDegC_at (j * 2 + 1))
            (uVtoDegC_at ((j + 1) * 2)) (uVtoDegC_at ((j + 1) * 2 + 1))
            (convertTipRawADCTouV (Board.mk 317 900 300 (fun _ => 20000) 0 0) 20000) := by
  have hne : convertTipRawADCTouV (Board.mk 317 900 300 (fun _ => 20000) 0 0) 20000 ≠ 0 := by
    decide
  refine ⟨by decide, hne, ?_⟩
  rcases convertTipRawADCToDegC_no_overflow (Board.mk 317 900 300 (fun _ => 20000) 0 0) 20000
    (by decide) (by decide) with h | ⟨j, hj, -, -, -, hin, -, heq, -⟩
  · exact absurd h.1 hne
  · exact ⟨j, hj, hin, heq⟩



/-! ## Monotonicity in the sample -/

/-- Claim C18: with a target temperature of 0 (bias compensation disabled) the reading is monotone
in the sample. For every `CalibrationOffset`, every gain constant `G ≥ 2` and every pair of raw
ADC codes `a ≤ c` in `0..32767`, `convertTipRawADCTouV a ≤ convertTipRawADCTouV c` and
`convertTipRawADCToDegC a ≤ convertTipRawADCToDegC c`. -/
theorem convertTipRawADC_monotone (b : Board) (a c : Nat) (hac : a ≤ c) (hc : c ≤ 32767)
    (hG : 2 ≤ b.OP_AMP_GAIN_STAGE) (hT : b.currentTempTargetDegC = 0) :
    convertTipRawADCTouV b a ≤ convertTipRawADCTouV b c ∧
    convertTipRawADCToDegC b a ≤ convertTipRawADCToDegC b c := by
  have huV := convertTipRawADCTouV_mono b a c hac (by omega) hT
  exact ⟨huV, convertuVToDegC_le_of_le _ _ huV (convertTipRawADCTouV_fits b c hc hG)⟩

/-- Witness for C18: codes 4274 and 4275 at gain 317 with an offset of 900 and no target. -/
theorem convertTipRawADC_monotone_witness :
    (4274 ≤ 4275 ∧ 4275 ≤ 32767 ∧
      2 ≤ (Board.mk 317 900 0 (fun _ => 0) 0 0).OP_AMP_GAIN_STAGE ∧
      (Board.mk 317 900 0 (fun _ => 0) 0 0).currentTempTargetDegC = 0) ∧
    convertTipRawADCTouV (Board.mk 317 900 0 (fun _ => 0) 0 0) 4274
      ≤ convertTipRawADCTouV (Board.mk 317 900 0 (fun _ => 0) 0 0) 4275 ∧
    convertTipRawADCToDegC (Board.mk 317 900 0 (fun _ => 0) 0 0) 4274
      ≤ convertTipRawADCToDegC (Board.mk 317 900 0 (fun _ => 0) 0 0) 4275 :=
  ⟨by decide, convertTipRawADC_monotone (Board.mk 317 900 0 (fun _ => 0) 0 0) 4274 4275
    (by decide) (by decide) (by decide) rfl⟩

/-- Claim C19: with an active target the bias step makes the reading non-monotone in the sample.
There are a gain constant `G ≥ 1`, a target temperature `T > 0`, a `CalibrationOffset` and raw
ADC codes `a < c` in `0..32767` with `convertTipRawADCTouV a > convertTipRawADCTouV c` and
`convertTipRawADCToDegC a > convertTipRawADCToDegC c`: at gain 317, offset 900 and target 300 the
compensation is 457; code 4274 gives 457 after offset removal, which is left unchanged (23
degrees), and code 4275 gives 458, which drops to 1 (0 degrees). -/
theorem convertTipRawADC_not_monotone :
    ∃ (b : Board) (a c : Nat),
      1 ≤ b.OP_AMP_GAIN_STAGE ∧ 0 < b.currentTempTargetDegC ∧ a < c ∧ c ≤ 32767 ∧
      20625 * (10 * b.currentTempTargetDegC + 600) / 512 / b.OP_AMP_GAIN_STAGE = 457 ∧
      a * 33000 / 32768 * 100 / b.OP_AMP_GAIN_STAGE - b.CalibrationOffset = 457 ∧
      c * 33000 / 32768 * 100 / b.OP_AMP_GAIN_STAGE - b.CalibrationOffset = 458 ∧
      convertTipRawADCTouV b a = 457 ∧ convertTipRawADCTouV b c = 1 ∧
      convertTipRawADCTouV b a > convertTipRawADCTouV b c ∧
      convertTipRawADCToDegC b a = 23 ∧ convertTipRawADCToDegC b c = 0 ∧
      convertTipRawADCToDegC b a > convertTipRawADCToDegC b c :=
  ⟨Board.mk 317 900 300 (fun _ => 0) 0 0, 4274, 4275, by decide⟩

end TipThermoModel
